import Mathlib

/-!
# godepchecker

A shallow embedding of `tools/rebasehelpers/godepchecker/godepchecker.go`
and the properties of its manifest loader, import scanner and report.

Modelling conventions.

* Strings held in a manifest (`ImportPath`, `Comment`, `Rev`) come out of
  `json.Unmarshal`, which always yields valid UTF-8, so they are Lean
  `String`s; Go compares strings bytewise, which on valid UTF-8 is the
  lexicographic order of the code points, i.e. the order of `String.data`.
* `pkg[1:len(pkg)-2]` slices by byte offset, so the import literals of
  `loadImports` are byte lists (`GoBytes`).
* A Go `map` is an association list whose order is the order in which `range`
  visits it.  Go leaves that order unspecified; the order-independence theorem
  below shows that the report is the same for every such order.
* Everything the program reaches outside this file (`ioutil.ReadFile`,
  `json.Unmarshal`, `parser.ParseFile`, `filepath.Join`, `util.IsAncestor`,
  the file tree) is a field of `Env`.
* Standard output and the calls to `util.IsAncestor` are recorded, in program
  order, as a list of `Event`s.
-/

namespace Godepchecker

/-! ## Data model -/

/-- Go `error` values that occur in the program. -/
inductive GoError where
  /-- An error made outside this file (file system, JSON decoder, Go parser,
  `util.IsAncestor`), with its `Error()` text. -/
  | other (msg : String)
  /-- The value of `fmt.Errorf("imports %q multiple times", dep.ImportPath)`. -/
  | importsMultipleTimes (importPath : String)
  deriving DecidableEq, Repr

/-- The Go struct `Dep`. -/
structure Dep where
  ImportPath : String
  Comment : String
  Rev : String
  deriving DecidableEq, Repr

/-- The zero value `Dep{}`, which indexing a map yields for an absent key. -/
def Dep.zero : Dep := ⟨"", "", ""⟩

/-- The Go struct `Godep`. -/
structure Godep where
  Deps : List Dep
  deriving DecidableEq, Repr

/-- A Go string as the byte sequence it is. -/
abbrev GoBytes := List UInt8

/-- A non-nil Go `map[K]V`: its entries in the order `range` visits them. -/
structure GoMap (K V : Type) where
  entries : List (K × V)
  deriving DecidableEq, Repr

/-- The map literal `map[K]V{}`. -/
def GoMap.empty {K V : Type} : GoMap K V := ⟨[]⟩

/-- The comma-ok lookup `v, exists := m[k]`. -/
def GoMap.lookup {K V : Type} [BEq K] (m : GoMap K V) (k : K) : Option V :=
  List.lookup k m.entries

/-- The keys of the map, in the order `for k := range m` yields them. -/
def GoMap.keys {K V : Type} (m : GoMap K V) : List K :=
  m.entries.map Prod.fst

/-- Assignment into an association list: an existing key keeps its place and
takes the new value, a new key is added. -/
def assign {K V : Type} [BEq K] : List (K × V) → K → V → List (K × V)
  | [], k, v => [(k, v)]
  | (k', v') :: rest, k, v =>
    if k' == k then (k, v) :: rest else (k', v') :: assign rest k v

/-- The assignment `m[k] = v`. -/
def GoMap.set {K V : Type} [BEq K] (m : GoMap K V) (k : K) (v : V) : GoMap K V :=
  ⟨assign m.entries k v⟩

/-- A Go map has each key once. -/
def GoMap.WF {K V : Type} (m : GoMap K V) : Prop := m.keys.Nodup

instance {K V : Type} [DecidableEq K] (m : GoMap K V) : Decidable m.WF :=
  inferInstanceAs (Decidable m.keys.Nodup)

/-! ## `loadGodeps` -/

/-- The loop of `loadGodeps` (lines 154-161) over the remaining records, with
the map filled so far.  The result is the pair `(map, error)` the function
returns; `none` in the first component is the nil map. -/
def loadGodepsLoop : List Dep → GoMap String Dep → Option (GoMap String Dep) × Option GoError
  | [], depmap => (some depmap, none)
  | dep :: rest, depmap =>
    if (depmap.lookup dep.ImportPath).isSome then
      (none, some (GoError.importsMultipleTimes dep.ImportPath))
    else
      loadGodepsLoop rest (depmap.set dep.ImportPath dep)

/-- The function `loadGodeps(file)`; `readFile` is `ioutil.ReadFile` and
`unmarshal` is `json.Unmarshal` into a fresh `Godep`. -/
def loadGodeps {Data : Type} (readFile : String → Except GoError Data)
    (unmarshal : Data → Except GoError Godep) (file : String) :
    Option (GoMap String Dep) × Option GoError :=
  match readFile file with
  | .error err => (none, some err)
  | .ok data =>
    match unmarshal data with
    | .error err => (none, some err)
    | .ok godeps => loadGodepsLoop godeps.Deps GoMap.empty

/-! ## `loadImports` -/

/-- The Go slice expression `s[lo:hi]` on a string: the bytes from offset `lo`
up to `hi`, and a run-time panic (`none`) unless `0 ≤ lo ≤ hi ≤ len(s)`. -/
def slice (s : GoBytes) (lo hi : Int) : Option GoBytes :=
  if 0 ≤ lo ∧ lo ≤ hi ∧ hi ≤ (s.length : Int) then
    some ((s.take hi.toNat).drop lo.toNat)
  else none

/-- A file tree as `filepath.Walk` sees it.  A `file` is anything that is not a
directory: `regular` is `info.Mode().IsRegular()` and `parsed` is what
`parser.ParseFile(fset, path, nil, parser.ImportsOnly)` returns for it, an
error or the `Path.Value` of each entry of `fileAST.Imports`.  The `entries`
of a directory are in the order `Walk` visits them. -/
inductive FsNode where
  | file (name : String) (regular : Bool) (parsed : Except GoError (List GoBytes))
  | dir (name : String) (entries : List FsNode)

/-- The two variables `imports` and `errs` of `loadImports`. -/
structure Scan where
  imports : GoMap GoBytes Bool
  errs : List GoError
  deriving DecidableEq, Repr

/-- The loop of lines 123-126 over `fileAST.Imports`; `none` is the panic of
an out-of-range slice expression. -/
def recordImports : List GoBytes → GoMap GoBytes Bool → Option (GoMap GoBytes Bool)
  | [], imports => some imports
  | pkg :: rest, imports =>
    match slice pkg 1 ((pkg.length : Int) - 2) with
    | none => none
    | some key => recordImports rest (imports.set key true)

/-- The call `strings.HasSuffix(name, ".go")`. -/
def hasGoSuffix (name : String) : Bool :=
  List.isSuffixOf ".go".data name.data

/-- Lines 119-128 of the walk function, for an entry that is not a directory
(for a directory `IsRegular()` is false and the lines do nothing). -/
def visitFile (name : String) (regular : Bool) (parsed : Except GoError (List GoBytes))
    (st : Scan) : Option Scan :=
  if hasGoSuffix name && regular then
    match parsed with
    | .error err => some ⟨st.imports, st.errs ++ [err]⟩
    | .ok imps => (recordImports imps st.imports).map (fun m => ⟨m, st.errs⟩)
  else some st

mutual
/-- The walk of `filepath.Walk` with the function of lines 113-130: a directory
named `Godeps` returns `filepath.SkipDir` and is not entered. -/
def walk : FsNode → Scan → Option Scan
  | .file name regular parsed, st => visitFile name regular parsed st
  | .dir name entries, st =>
    if name == "Godeps" then some st else walkEntries entries st
/-- The walk over the entries of a directory, in order. -/
def walkEntries : List FsNode → Scan → Option Scan
  | [], st => some st
  | n :: ns, st =>
    match walk n st with
    | none => none
    | some st' => walkEntries ns st'
end

/-- The function `loadImports(root)` on the tree found at `root`; `none` is a
run-time panic. -/
def loadImports (root : FsNode) : Option (GoMap GoBytes Bool × List GoError) :=
  (walk root ⟨GoMap.empty, []⟩).map (fun st => (st.imports, st.errs))

/-! ## `main` -/

/-- The three labels the report prints after a revision. -/
inductive Label where
  | older
  | newer
  | unknown
  deriving DecidableEq, Repr

/-- What `main` does that can be observed, one constructor per statement. -/
inductive Event where
  /-- Line 22, the text about the assumptions. -/
  | banner
  /-- Line 73, `k8s-only godep imports (may need adding to origin):`. -/
  | k8sOnlyHeader
  /-- Line 75, `fmt.Println(k)` for an entry of `yours`. -/
  | k8sOnly (k : String)
  /-- Line 77, three newlines. -/
  | separator
  /-- Line 85, `Mismatch on %s:`. -/
  | mismatch (k : String)
  /-- Lines 87, 90 and 93, `    Origin: %s (label)`. -/
  | origin (rev : String) (label : Label)
  /-- Lines 88, 91 and 94, `    K8s:    %s (label)`. -/
  | k8s (rev : String) (label : Label)
  /-- Line 95, `fmt.Printf("    %s\n", err)`; `none` is the nil error. -/
  | errText (err : Option GoError)
  /-- Lines 86 and 89, a call `util.IsAncestor(rev1, rev2, dir)`. -/
  | isAncestorCall (rev1 rev2 dir : String)
  deriving DecidableEq, Repr

/-- What the program reads from outside. -/
structure Env (Data : Type) where
  /-- The value of `os.Getenv("GOPATH")`. -/
  gopath : String
  /-- The flag `-self` after `flag.Parse()`. -/
  self : String
  /-- The flag `-other` after `flag.Parse()`. -/
  other : String
  /-- The function `ioutil.ReadFile`. -/
  readFile : String → Except GoError Data
  /-- The function `json.Unmarshal` into a fresh `Godep`. -/
  unmarshal : Data → Except GoError Godep
  /-- The file tree at `.`. -/
  root : FsNode
  /-- The function `filepath.Join`. -/
  Join : List String → String
  /-- The function `util.IsAncestor(rev1, rev2, dir)`, returning `(bool, error)`. -/
  IsAncestor : String → String → String → Bool × Option GoError

/-- How a run of `main` ends. -/
inductive Outcome where
  /-- The function `main` returned: exit status 0. -/
  | returned (trace : List Event)
  /-- The function `exit(reason, errors...)` wrote `reason` and the errors to
  standard error and called `os.Exit(2)`. -/
  | exited (trace : List Event) (reason : String) (errors : List GoError)
  /-- A run-time panic. -/
  | panicked (trace : List Event)
  deriving DecidableEq, Repr

/-- The call `sort.Strings`: the increasing rearrangement under the order of Go
strings.  That rearrangement is unique, so the sorting algorithm is free. -/
def sortStrings (l : List String) : List String :=
  l.insertionSort (fun a b => a.data ≤ b.data)

/-- The loop of lines 54-60: the pair `(mine, ours)` after it. -/
def rangeOrigin (originGodeps k8sGodeps : GoMap String Dep) : List String × List String :=
  originGodeps.keys.foldl
    (fun acc k =>
      if (k8sGodeps.lookup k).isSome then (acc.1, acc.2 ++ [k]) else (acc.1 ++ [k], acc.2))
    ([], [])

/-- The loop of lines 61-65: `yours` after it. -/
def rangeK8s (originGodeps k8sGodeps : GoMap String Dep) : List String :=
  k8sGodeps.keys.foldl
    (fun yours k => if !(originGodeps.lookup k).isSome then yours ++ [k] else yours)
    []

/-- The variable `mine` after line 67. -/
def mine (originGodeps k8sGodeps : GoMap String Dep) : List String :=
  sortStrings (rangeOrigin originGodeps k8sGodeps).1

/-- The variable `yours` after line 68. -/
def yours (originGodeps k8sGodeps : GoMap String Dep) : List String :=
  sortStrings (rangeK8s originGodeps k8sGodeps)

/-- The variable `ours` after line 69. -/
def ours (originGodeps k8sGodeps : GoMap String Dep) : List String :=
  sortStrings (rangeOrigin originGodeps k8sGodeps).2

/-- Lines 72-78: the k8s-only group. -/
def printYours (yours : List String) : List Event :=
  if yours.length > 0 then
    [Event.k8sOnlyHeader] ++ yours.map Event.k8sOnly ++ [Event.separator]
  else []

/-- The expression `m[k].Rev`. -/
def revOf (m : GoMap String Dep) (k : String) : String :=
  ((m.lookup k).getD Dep.zero).Rev

/-- Lines 85-96, for a path `k` whose revisions `oRev` and `kRev` differ. -/
def reportMismatch {Data : Type} (env : Env Data) (k oRev kRev : String) : List Event :=
  let dir := env.Join [env.gopath, "src", k]
  let first := env.IsAncestor oRev kRev dir
  if first.1 && first.2 == none then
    [Event.mismatch k, Event.isAncestorCall oRev kRev dir,
      Event.origin oRev Label.older, Event.k8s kRev Label.newer]
  else
    let second := env.IsAncestor kRev oRev dir
    if second.1 && second.2 == none then
      [Event.mismatch k, Event.isAncestorCall oRev kRev dir, Event.isAncestorCall kRev oRev dir,
        Event.origin oRev Label.newer, Event.k8s kRev Label.older]
    else
      [Event.mismatch k, Event.isAncestorCall oRev kRev dir, Event.isAncestorCall kRev oRev dir,
        Event.origin oRev Label.unknown, Event.k8s kRev Label.unknown, Event.errText second.2]

/-- The body of the loop of line 83 for one entry `k` of `ours`. -/
def checkLevel {Data : Type} (env : Env Data) (originGodeps k8sGodeps : GoMap String Dep)
    (k : String) : List Event :=
  if revOf originGodeps k != revOf k8sGodeps k then
    reportMismatch env k (revOf originGodeps k) (revOf k8sGodeps k)
  else []

/-- Lines 51-98: what `main` does once both manifests and the imports are
loaded. -/
def report {Data : Type} (env : Env Data) (originGodeps k8sGodeps : GoMap String Dep) :
    List Event :=
  printYours (yours originGodeps k8sGodeps) ++
    (ours originGodeps k8sGodeps).flatMap (checkLevel env originGodeps k8sGodeps)

/-- The function `main`.  A map result that is nil reads as the empty map. -/
def main {Data : Type} (env : Env Data) : Outcome :=
  match loadGodeps env.readFile env.unmarshal env.self with
  | (_, some err) => Outcome.exited [Event.banner] ("Error loading " ++ env.self ++ ":") [err]
  | (originGodeps, none) =>
    match loadGodeps env.readFile env.unmarshal env.other with
    | (_, some err) => Outcome.exited [Event.banner] ("Error loading " ++ env.other ++ ":") [err]
    | (k8sGodeps, none) =>
      match loadImports env.root with
      | none => Outcome.panicked [Event.banner]
      | some (_, errs) =>
        if errs.length > 0 then Outcome.exited [Event.banner] "Error loading imports:" errs
        else
          Outcome.returned
            (Event.banner :: report env (originGodeps.getD GoMap.empty) (k8sGodeps.getD GoMap.empty))

/-- The paths the report prints under the k8s-only heading, in order. -/
def k8sOnlyPaths (trace : List Event) : List String :=
  trace.filterMap (fun e => match e with
    | Event.k8sOnly k => some k
    | _ => none)

/-- The paths of the mismatch entries of the report, in order. -/
def mismatchPaths (trace : List Event) : List String :=
  trace.filterMap (fun e => match e with
    | Event.mismatch k => some k
    | _ => none)

/-- The calls to `util.IsAncestor` in a trace, in order. -/
def ancestorCalls (trace : List Event) : List (String × String × String) :=
  trace.filterMap (fun e => match e with
    | Event.isAncestorCall a b d => some (a, b, d)
    | _ => none)

/-- The label on the first `Origin:` line of a trace. -/
def originLabel (trace : List Event) : Option Label :=
  trace.findSome? (fun e => match e with
    | Event.origin _ l => some l
    | _ => none)

/-- The label on the first `K8s:` line of a trace. -/
def k8sLabel (trace : List Event) : Option Label :=
  trace.findSome? (fun e => match e with
    | Event.k8s _ l => some l
    | _ => none)

/-- The errors printed by line 95 in a trace, in order. -/
def printedErrors (trace : List Event) : List (Option GoError) :=
  trace.filterMap (fun e => match e with
    | Event.errText err => some err
    | _ => none)

/-! ## Sample runs -/

/-- A run in which the manifest `A.json` pins `foo/bar` at `aaa`, every other
manifest pins it at `bbb`, the tree at `.` is empty, and the history has `aaa`
as an ancestor of `bbb` and no other ancestry. -/
def sampleEnv : Env String :=
  ⟨"/go", "A.json", "B.json", fun file => Except.ok file,
    fun data =>
      if data == "A.json" then Except.ok ⟨[⟨"foo/bar", "", "aaa"⟩]⟩
      else Except.ok ⟨[⟨"foo/bar", "", "bbb"⟩]⟩,
    FsNode.dir "." [], String.intercalate "/",
    fun rev1 rev2 _ => (rev1 == "aaa" && rev2 == "bbb", none)⟩

/-- A run as `sampleEnv` in which the checkout of the dependency answers the
first question (`aaa` before `bbb`?) with an error and the second with a plain
no. -/
def flakyEnv : Env String :=
  ⟨"/go", "A.json", "B.json", fun file => Except.ok file,
    fun data =>
      if data == "A.json" then Except.ok ⟨[⟨"foo/bar", "", "aaa"⟩]⟩
      else Except.ok ⟨[⟨"foo/bar", "", "bbb"⟩]⟩,
    FsNode.dir "." [], String.intercalate "/",
    fun rev1 _ _ =>
      if rev1 == "aaa" then (false, some (GoError.other "exit status 128")) else (false, none)⟩

/-- A loaded manifest of self: `foo/bar` at `aaa`, `m` at `r`, `z/only` at `q`. -/
def sampleOrigin : GoMap String Dep :=
  ⟨[("foo/bar", ⟨"foo/bar", "", "aaa"⟩), ("z/only", ⟨"z/only", "", "q"⟩), ("m", ⟨"m", "", "r"⟩)]⟩

/-- A loaded manifest of the other side: `x/y` at `z`, `m` at `r`, `foo/bar` at
`bbb`, `b` at `w`. -/
def sampleK8s : GoMap String Dep :=
  ⟨[("x/y", ⟨"x/y", "", "z"⟩), ("m", ⟨"m", "v1", "r"⟩), ("foo/bar", ⟨"foo/bar", "", "bbb"⟩),
    ("b", ⟨"b", "", "w"⟩)]⟩

/-! ## Association lists and `loadGodeps` -/

theorem assoc_lookup_isSome_iff {V : Type} (k : String) (l : List (String × V)) :
    (List.lookup k l).isSome = true ↔ k ∈ l.map Prod.fst := by
  induction l with
  | nil => simp
  | cons p l ih =>
    obtain ⟨k', v⟩ := p
    by_cases h : k = k'
    · subst h
      simp [List.lookup]
    · have hb : (k == k') = false := by simpa using h
      simp [List.lookup, hb, ih, h]

theorem GoMap.lookup_isSome_iff {V : Type} (m : GoMap String V) (k : String) :
    (m.lookup k).isSome = true ↔ k ∈ m.keys :=
  assoc_lookup_isSome_iff k m.entries

theorem assign_of_not_mem {V : Type} (l : List (String × V)) (k : String) (v : V)
    (h : k ∉ l.map Prod.fst) : assign l k v = l ++ [(k, v)] := by
  induction l with
  | nil => rfl
  | cons p l ih =>
    obtain ⟨k', v'⟩ := p
    simp only [List.map_cons, List.mem_cons, not_or] at h
    have hb : (k' == k) = false := by simpa using fun e => h.1 e.symm
    simp [assign, hb, ih h.2]

theorem lookup_map_self (deps : List Dep) (hnd : (deps.map Dep.ImportPath).Nodup)
    (d : Dep) (hd : d ∈ deps) :
    List.lookup d.ImportPath (deps.map (fun x => (x.ImportPath, x))) = some d := by
  induction deps with
  | nil => simp at hd
  | cons x deps ih =>
    simp only [List.map_cons, List.nodup_cons, List.mem_map, not_exists, not_and] at hnd
    rcases List.mem_cons.1 hd with rfl | hmem
    · simp [List.lookup]
    · have hne : d.ImportPath ≠ x.ImportPath := fun e => hnd.1 d hmem e
      have hb : (d.ImportPath == x.ImportPath) = false := by simpa using hne
      simp only [List.map_cons, List.lookup, hb]
      exact ih hnd.2 hmem

theorem loadGodepsLoop_ok (deps : List Dep) (m : GoMap String Dep)
    (h : (m.keys ++ deps.map Dep.ImportPath).Nodup) :
    loadGodepsLoop deps m
      = (some ⟨m.entries ++ deps.map (fun d => (d.ImportPath, d))⟩, none) := by
  induction deps generalizing m with
  | nil => simp [loadGodepsLoop]
  | cons d deps ih =>
    have hnot : d.ImportPath ∉ m.keys := by
      intro hmem
      have := List.disjoint_of_nodup_append h hmem
      simp at this
    have hlk : (m.lookup d.ImportPath).isSome = false := by
      rw [Bool.eq_false_iff]
      exact fun e => hnot ((m.lookup_isSome_iff _).1 e)
    have hset : m.set d.ImportPath d = ⟨m.entries ++ [(d.ImportPath, d)]⟩ := by
      simp only [GoMap.set]
      rw [assign_of_not_mem _ _ _ hnot]
    have h2 : ((m.set d.ImportPath d).keys ++ deps.map Dep.ImportPath).Nodup := by
      rw [hset]
      simpa [GoMap.keys] using h
    simp only [loadGodepsLoop, hlk]
    rw [ih _ h2, hset]
    simp

theorem loadGodepsLoop_dup (deps : List Dep) (m : GoMap String Dep) (hm : m.keys.Nodup)
    (h : ¬ (m.keys ++ deps.map Dep.ImportPath).Nodup) :
    ∃ p, loadGodepsLoop deps m = (none, some (GoError.importsMultipleTimes p)) ∧
      2 ≤ (m.keys ++ deps.map Dep.ImportPath).count p := by
  induction deps generalizing m with
  | nil => simp at h; exact absurd hm h
  | cons d deps ih =>
    by_cases hmem : d.ImportPath ∈ m.keys
    · refine ⟨d.ImportPath, ?_, ?_⟩
      · have hlk : (m.lookup d.ImportPath).isSome = true := (m.lookup_isSome_iff _).2 hmem
        simp [loadGodepsLoop, hlk]
      · have h1 : 1 ≤ m.keys.count d.ImportPath := List.count_pos_iff.2 hmem
        simp only [List.map_cons, List.count_append, List.count_cons_self]
        omega
    · have hlk : (m.lookup d.ImportPath).isSome = false := by
        rw [Bool.eq_false_iff]
        exact fun e => hmem ((m.lookup_isSome_iff _).1 e)
      have hset : m.set d.ImportPath d = ⟨m.entries ++ [(d.ImportPath, d)]⟩ := by
        simp only [GoMap.set]
        rw [assign_of_not_mem _ _ _ hmem]
      have hkeys : (m.set d.ImportPath d).keys = m.keys ++ [d.ImportPath] := by
        rw [hset]; simp [GoMap.keys]
      have hm2 : (m.set d.ImportPath d).keys.Nodup := by
        rw [hkeys]
        exact List.Nodup.append hm (List.nodup_singleton _) (by simpa using hmem)
      have h2 : ¬ ((m.set d.ImportPath d).keys ++ deps.map Dep.ImportPath).Nodup := by
        rw [hkeys]
        simpa using h
      obtain ⟨p, hp, hc⟩ := ih _ hm2 h2
      refine ⟨p, ?_, ?_⟩
      · simp only [loadGodepsLoop, hlk]
        exact hp
      · rw [hkeys] at hc
        simpa using hc

theorem positions_of_two_le_count (l : List String) (p : String) (h : 2 ≤ l.count p) :
    ∃ i j : Nat, i < j ∧ l[i]? = some p ∧ l[j]? = some p := by
  obtain ⟨n, m, hnm, hn, hm⟩ :=
    List.duplicate_iff_exists_distinct_get.1 (List.duplicate_iff_two_le_count.2 h)
  refine ⟨n.1, m.1, hnm, ?_, ?_⟩
  · rw [List.getElem?_eq_getElem n.2, hn]; rfl
  · rw [List.getElem?_eq_getElem m.2, hm]; rfl

theorem not_nodup_of_positions (l : List String) (i j : Nat) (p : String) (hij : i < j)
    (hi : l[i]? = some p) (hj : l[j]? = some p) : ¬ l.Nodup := by
  intro hnd
  have hlen : j < l.length := (List.getElem?_eq_some_iff.1 hj).1
  exact List.nodup_iff_getElem?_ne_getElem?.1 hnd i j hij hlen (hi.trans hj.symm)

theorem mem_of_lookup_eq_some {V : Type} (l : List (String × V)) (k : String) (v : V)
    (h : List.lookup k l = some v) : (k, v) ∈ l := by
  induction l with
  | nil => simp at h
  | cons p l ih =>
    obtain ⟨k', v'⟩ := p
    by_cases e : k = k'
    · subst e
      simp [List.lookup] at h
      simp [h]
    · have hb : (k == k') = false := by simpa using e
      simp only [List.lookup, hb] at h
      exact List.mem_cons_of_mem _ (ih h)

/-- C1: when the decoded manifest has some import path at two different
positions, `loadGodeps` returns the nil map together with the error
`imports %q multiple times` for a path that occurs at two different positions
of the manifest. -/
theorem loadGodeps_duplicate_fails {Data : Type} (readFile : String → Except GoError Data)
    (unmarshal : Data → Except GoError Godep) (file : String) (data : Data) (godeps : Godep)
    (hread : readFile file = .ok data) (hjson : unmarshal data = .ok godeps)
    (i j : Nat) (p : String) (hij : i < j)
    (hi : (godeps.Deps.map Dep.ImportPath)[i]? = some p)
    (hj : (godeps.Deps.map Dep.ImportPath)[j]? = some p) :
    ∃ q, loadGodeps readFile unmarshal file = (none, some (GoError.importsMultipleTimes q)) ∧
      ∃ i' j' : Nat, i' < j' ∧ (godeps.Deps.map Dep.ImportPath)[i']? = some q ∧
        (godeps.Deps.map Dep.ImportPath)[j']? = some q := by
  have hnd : ¬ ((GoMap.empty : GoMap String Dep).keys ++ godeps.Deps.map Dep.ImportPath).Nodup := by
    simpa [GoMap.empty, GoMap.keys] using not_nodup_of_positions _ i j p hij hi hj
  obtain ⟨q, hq, hc⟩ := loadGodepsLoop_dup godeps.Deps GoMap.empty (by simp [GoMap.empty, GoMap.keys]) hnd
  refine ⟨q, ?_, positions_of_two_le_count _ q (by simpa [GoMap.empty, GoMap.keys] using hc)⟩
  simp only [loadGodeps, hread, hjson]
  exact hq

/-- Witness for C1: the manifest `x/y, a, x/y`. -/
theorem loadGodeps_duplicate_fails_witness :
    ∃ q, loadGodeps (fun _ => Except.ok ()) (fun _ => Except.ok
          ⟨[⟨"x/y", "", "z"⟩, ⟨"a", "", "q"⟩, ⟨"x/y", "c", "w"⟩]⟩) "Godeps.json"
        = (none, some (GoError.importsMultipleTimes q)) ∧
      ∃ i' j' : Nat, i' < j' ∧ (["x/y", "a", "x/y"] : List String)[i']? = some q ∧
        (["x/y", "a", "x/y"] : List String)[j']? = some q :=
  loadGodeps_duplicate_fails (fun _ => Except.ok ()) (fun _ => Except.ok
    ⟨[⟨"x/y", "", "z"⟩, ⟨"a", "", "q"⟩, ⟨"x/y", "c", "w"⟩]⟩) "Godeps.json" ()
    ⟨[⟨"x/y", "", "z"⟩, ⟨"a", "", "q"⟩, ⟨"x/y", "c", "w"⟩]⟩ rfl rfl 0 2 "x/y" (by decide) rfl rfl

/-- C2: when the import paths of the decoded manifest are pairwise distinct,
`loadGodeps` returns a map and no error; the keys of the map are exactly the
paths of the manifest, each once, and each path is mapped to the record that
carries it, and to nothing else. -/
theorem loadGodeps_distinct_succeeds {Data : Type} (readFile : String → Except GoError Data)
    (unmarshal : Data → Except GoError Godep) (file : String) (data : Data) (godeps : Godep)
    (hread : readFile file = .ok data) (hjson : unmarshal data = .ok godeps)
    (hnd : (godeps.Deps.map Dep.ImportPath).Nodup) :
    ∃ m, loadGodeps readFile unmarshal file = (some m, none) ∧ m.WF ∧
      (∀ k, k ∈ m.keys ↔ k ∈ godeps.Deps.map Dep.ImportPath) ∧
      (∀ d ∈ godeps.Deps, m.lookup d.ImportPath = some d) ∧
      (∀ k d, m.lookup k = some d → d ∈ godeps.Deps ∧ d.ImportPath = k) := by
  have hkeys : (godeps.Deps.map (fun d => (d.ImportPath, d))).map Prod.fst
      = godeps.Deps.map Dep.ImportPath := by
    rw [List.map_map]; rfl
  refine ⟨⟨godeps.Deps.map (fun d => (d.ImportPath, d))⟩, ?_, ?_, ?_, ?_, ?_⟩
  · simp only [loadGodeps, hread, hjson]
    rw [loadGodepsLoop_ok _ _ (by simpa [GoMap.empty, GoMap.keys] using hnd)]
    simp [GoMap.empty]
  · simpa [GoMap.WF, GoMap.keys, hkeys] using hnd
  · intro k
    simp [GoMap.keys, hkeys]
  · intro d hd
    exact lookup_map_self _ hnd d hd
  · intro k d hlk
    have hmem : (k, d) ∈ godeps.Deps.map (fun d => (d.ImportPath, d)) :=
      mem_of_lookup_eq_some _ _ _ hlk
    obtain ⟨x, hx, hxe⟩ := List.mem_map.1 hmem
    simp only [Prod.mk.injEq] at hxe
    exact ⟨hxe.2 ▸ hx, by rw [← hxe.2]; exact hxe.1⟩

/-- Witness for C2: the manifest `x/y, a`. -/
theorem loadGodeps_distinct_succeeds_witness :
    ∃ m, loadGodeps (fun _ => Except.ok ()) (fun _ => Except.ok
          ⟨[⟨"x/y", "", "z"⟩, ⟨"a", "", "q"⟩]⟩) "Godeps.json" = (some m, none) ∧ m.WF ∧
      (∀ k, k ∈ m.keys ↔ k ∈ (["x/y", "a"] : List String)) ∧
      (∀ d ∈ ([⟨"x/y", "", "z"⟩, ⟨"a", "", "q"⟩] : List Dep), m.lookup d.ImportPath = some d) ∧
      (∀ k d, m.lookup k = some d →
        d ∈ ([⟨"x/y", "", "z"⟩, ⟨"a", "", "q"⟩] : List Dep) ∧ d.ImportPath = k) :=
  loadGodeps_distinct_succeeds (fun _ => Except.ok ()) (fun _ => Except.ok
    ⟨[⟨"x/y", "", "z"⟩, ⟨"a", "", "q"⟩]⟩) "Godeps.json" ()
    ⟨[⟨"x/y", "", "z"⟩, ⟨"a", "", "q"⟩]⟩ rfl rfl (by decide)

/-! ## Sorting -/

theorem data_le_iff (a b : String) : a.data ≤ b.data ↔ a ≤ b :=
  String.le_iff_toList_le.symm

instance : IsTotal String (fun a b => a.data ≤ b.data) :=
  ⟨fun a b => by
    rw [data_le_iff, data_le_iff]
    exact le_total a b⟩

instance : IsTrans String (fun a b => a.data ≤ b.data) :=
  ⟨fun a b c hab hbc => by
    rw [data_le_iff] at *
    exact le_trans hab hbc⟩

instance : IsAntisymm String (fun a b => a.data ≤ b.data) :=
  ⟨fun a b hab hba => by
    rw [data_le_iff] at *
    exact le_antisymm hab hba⟩

theorem sortStrings_perm (l : List String) : (sortStrings l).Perm l :=
  List.perm_insertionSort _ l

theorem mem_sortStrings (l : List String) (k : String) : k ∈ sortStrings l ↔ k ∈ l :=
  (sortStrings_perm l).mem_iff

theorem sortStrings_sorted (l : List String) :
    (sortStrings l).Sorted (fun a b => a.data ≤ b.data) :=
  List.sorted_insertionSort _ l

theorem sortStrings_sorted_le (l : List String) : (sortStrings l).Sorted (· ≤ ·) :=
  (sortStrings_sorted l).imp (fun h => (data_le_iff _ _).1 h)

theorem sortStrings_sorted_lt (l : List String) (h : l.Nodup) :
    (sortStrings l).Sorted (· < ·) :=
  (sortStrings_sorted_le l).lt_of_le ((sortStrings_perm l).nodup_iff.2 h)

theorem sortStrings_congr (l₁ l₂ : List String) (h : l₁.Perm l₂) :
    sortStrings l₁ = sortStrings l₂ :=
  List.eq_of_perm_of_sorted
    (((sortStrings_perm l₁).trans h).trans (sortStrings_perm l₂).symm)
    (sortStrings_sorted l₁) (sortStrings_sorted l₂)

/-! ## The three lists of `main` -/

theorem foldl_split (P : String → Bool) (ks : List String) (acc : List String × List String) :
    ks.foldl (fun acc k => if P k then (acc.1, acc.2 ++ [k]) else (acc.1 ++ [k], acc.2)) acc
      = (acc.1 ++ ks.filter (fun k => !P k), acc.2 ++ ks.filter P) := by
  induction ks generalizing acc with
  | nil => simp
  | cons k ks ih =>
    rw [List.foldl_cons, ih]
    by_cases h : P k <;> simp [h]

theorem foldl_collect (P : String → Bool) (ks : List String) (acc : List String) :
    ks.foldl (fun acc k => if P k then acc ++ [k] else acc) acc = acc ++ ks.filter P := by
  induction ks generalizing acc with
  | nil => simp
  | cons k ks ih =>
    rw [List.foldl_cons, ih]
    by_cases h : P k <;> simp [h]

theorem rangeOrigin_eq (A B : GoMap String Dep) :
    rangeOrigin A B = (A.keys.filter (fun k => !(B.lookup k).isSome),
      A.keys.filter (fun k => (B.lookup k).isSome)) := by
  simp only [rangeOrigin]
  rw [foldl_split (fun k => (B.lookup k).isSome)]
  simp

theorem rangeK8s_eq (A B : GoMap String Dep) :
    rangeK8s A B = B.keys.filter (fun k => !(A.lookup k).isSome) := by
  simp only [rangeK8s]
  rw [foldl_collect (fun k => !(A.lookup k).isSome)]
  simp

theorem mem_yours (A B : GoMap String Dep) (k : String) :
    k ∈ yours A B ↔ k ∈ B.keys ∧ k ∉ A.keys := by
  rw [yours, mem_sortStrings, rangeK8s_eq, List.mem_filter, ← A.lookup_isSome_iff]
  simp

theorem mem_mine (A B : GoMap String Dep) (k : String) :
    k ∈ mine A B ↔ k ∈ A.keys ∧ k ∉ B.keys := by
  rw [mine, mem_sortStrings, rangeOrigin_eq, List.mem_filter, ← B.lookup_isSome_iff]
  simp

theorem mem_ours (A B : GoMap String Dep) (k : String) :
    k ∈ ours A B ↔ k ∈ A.keys ∧ k ∈ B.keys := by
  rw [ours, mem_sortStrings, rangeOrigin_eq, List.mem_filter, ← B.lookup_isSome_iff]

theorem yours_nodup (A B : GoMap String Dep) (hB : B.WF) : (yours A B).Nodup := by
  rw [yours, (sortStrings_perm _).nodup_iff, rangeK8s_eq]
  exact hB.filter _

theorem ours_nodup (A B : GoMap String Dep) (hA : A.WF) : (ours A B).Nodup := by
  rw [ours, (sortStrings_perm _).nodup_iff, rangeOrigin_eq]
  exact hA.filter _

/-! ## Reading the trace -/

theorem k8sOnlyPaths_printYours (l : List String) : k8sOnlyPaths (printYours l) = l := by
  cases l with
  | nil => simp [printYours, k8sOnlyPaths]
  | cons a l =>
    have h : ∀ l : List String, List.filterMap (fun e => match e with
        | Event.k8sOnly k => some k
        | _ => none) (l.map Event.k8sOnly) = l := by
      intro l
      induction l with
      | nil => rfl
      | cons b l ih => simp [List.filterMap_cons, ih]
    simp only [printYours, k8sOnlyPaths, List.length_cons, gt_iff_lt, Nat.zero_lt_succ,
      ↓reduceIte, List.filterMap_append, h]
    simp

theorem mismatchPaths_printYours (l : List String) : mismatchPaths (printYours l) = [] := by
  unfold printYours mismatchPaths
  split
  · simp [List.filterMap_append, List.filterMap_map]
  · rfl

theorem ancestorCalls_printYours (l : List String) : ancestorCalls (printYours l) = [] := by
  unfold printYours ancestorCalls
  split
  · simp [List.filterMap_append, List.filterMap_map]
  · rfl

theorem reportMismatch_eq {Data : Type} (env : Env Data) (k o r : String) :
    reportMismatch env k o r =
      if ((env.IsAncestor o r (env.Join [env.gopath, "src", k])).1 &&
          (env.IsAncestor o r (env.Join [env.gopath, "src", k])).2 == none) = true then
        [Event.mismatch k, Event.isAncestorCall o r (env.Join [env.gopath, "src", k]),
          Event.origin o Label.older, Event.k8s r Label.newer]
      else if ((env.IsAncestor r o (env.Join [env.gopath, "src", k])).1 &&
          (env.IsAncestor r o (env.Join [env.gopath, "src", k])).2 == none) = true then
        [Event.mismatch k, Event.isAncestorCall o r (env.Join [env.gopath, "src", k]),
          Event.isAncestorCall r o (env.Join [env.gopath, "src", k]),
          Event.origin o Label.newer, Event.k8s r Label.older]
      else
        [Event.mismatch k, Event.isAncestorCall o r (env.Join [env.gopath, "src", k]),
          Event.isAncestorCall r o (env.Join [env.gopath, "src", k]),
          Event.origin o Label.unknown, Event.k8s r Label.unknown,
          Event.errText (env.IsAncestor r o (env.Join [env.gopath, "src", k])).2] :=
  rfl

theorem k8sOnlyPaths_reportMismatch {Data : Type} (env : Env Data) (k o r : String) :
    k8sOnlyPaths (reportMismatch env k o r) = [] := by
  rw [reportMismatch_eq]
  unfold k8sOnlyPaths
  split_ifs <;> rfl

theorem mismatchPaths_reportMismatch {Data : Type} (env : Env Data) (k o r : String) :
    mismatchPaths (reportMismatch env k o r) = [k] := by
  rw [reportMismatch_eq]
  unfold mismatchPaths
  split_ifs <;> rfl

theorem k8sOnlyPaths_checkLevel {Data : Type} (env : Env Data) (A B : GoMap String Dep)
    (k : String) : k8sOnlyPaths (checkLevel env A B k) = [] := by
  unfold checkLevel
  split
  · exact k8sOnlyPaths_reportMismatch _ _ _ _
  · rfl

theorem mismatchPaths_checkLevel {Data : Type} (env : Env Data) (A B : GoMap String Dep)
    (k : String) :
    mismatchPaths (checkLevel env A B k) = if revOf A k != revOf B k then [k] else [] := by
  unfold checkLevel
  split
  · exact mismatchPaths_reportMismatch _ _ _ _
  · rfl

theorem k8sOnlyPaths_flatMap {Data : Type} (env : Env Data) (A B : GoMap String Dep)
    (l : List String) : k8sOnlyPaths (l.flatMap (checkLevel env A B)) = [] := by
  induction l with
  | nil => rfl
  | cons k l ih =>
    have hk := k8sOnlyPaths_checkLevel env A B k
    unfold k8sOnlyPaths at *
    rw [List.flatMap_cons, List.filterMap_append, ih, hk]; rfl

theorem mismatchPaths_flatMap {Data : Type} (env : Env Data) (A B : GoMap String Dep)
    (l : List String) :
    mismatchPaths (l.flatMap (checkLevel env A B))
      = l.filter (fun k => revOf A k != revOf B k) := by
  induction l with
  | nil => rfl
  | cons k l ih =>
    have hk := mismatchPaths_checkLevel env A B k
    unfold mismatchPaths at *
    rw [List.flatMap_cons, List.filterMap_append, ih, hk]
    by_cases h : (revOf A k != revOf B k) = true
    · simp [h]
    · simp [h]

theorem k8sOnlyPaths_report {Data : Type} (env : Env Data) (A B : GoMap String Dep) :
    k8sOnlyPaths (report env A B) = yours A B := by
  have h1 := k8sOnlyPaths_printYours (yours A B)
  have h2 := k8sOnlyPaths_flatMap env A B (ours A B)
  unfold k8sOnlyPaths at *
  rw [report, List.filterMap_append, h1, h2, List.append_nil]

theorem mismatchPaths_report {Data : Type} (env : Env Data) (A B : GoMap String Dep) :
    mismatchPaths (report env A B)
      = (ours A B).filter (fun k => revOf A k != revOf B k) := by
  have h1 := mismatchPaths_printYours (yours A B)
  have h2 := mismatchPaths_flatMap env A B (ours A B)
  unfold mismatchPaths at *
  rw [report, List.filterMap_append, h1, h2, List.nil_append]

theorem revOf_of_lookup (m : GoMap String Dep) (k : String) (d : Dep)
    (h : m.lookup k = some d) : revOf m k = d.Rev := by
  simp [revOf, h]

theorem mem_keys_of_lookup (m : GoMap String Dep) (k : String) (d : Dep)
    (h : m.lookup k = some d) : k ∈ m.keys :=
  (m.lookup_isSome_iff k).1 (by simp [h])

theorem ancestorCalls_checkLevel {Data : Type} (env : Env Data) (A B : GoMap String Dep)
    (k : String) (c : String × String × String)
    (hc : c ∈ ancestorCalls (checkLevel env A B k)) : c.1 ≠ c.2.1 := by
  unfold checkLevel at hc
  split at hc
  · rename_i hne
    have hne' : revOf A k ≠ revOf B k := by simpa using hne
    rw [reportMismatch_eq] at hc
    unfold ancestorCalls at hc
    split_ifs at hc <;> simp at hc <;> rcases hc with rfl | rfl <;>
      first | exact hne' | exact fun e => hne' e.symm
  · simp [ancestorCalls] at hc

theorem ancestorCalls_report {Data : Type} (env : Env Data) (A B : GoMap String Dep)
    (c : String × String × String) (hc : c ∈ ancestorCalls (report env A B)) :
    c.1 ≠ c.2.1 := by
  have h1 := ancestorCalls_printYours (yours A B)
  unfold ancestorCalls at hc h1
  rw [report, List.filterMap_append, h1, List.nil_append, List.mem_filterMap] at hc
  obtain ⟨e, he, hec⟩ := hc
  obtain ⟨k, _, hk⟩ := List.mem_flatMap.1 he
  exact ancestorCalls_checkLevel env A B k c (by
    unfold ancestorCalls
    exact List.mem_filterMap.2 ⟨e, hk, hec⟩)

/-! ## The report -/

/-- C3: the paths printed under the k8s-only heading are the list `yours`, and
`yours` holds each key of the other manifest that is not a key of self exactly
once and nothing else; when self is empty it is a rearrangement of all keys of
the other manifest and the report has no mismatch entry. -/
theorem yours_exactly_missing {Data : Type} (env : Env Data) (A B : GoMap String Dep)
    (hB : B.WF) :
    k8sOnlyPaths (report env A B) = yours A B ∧
    (∀ k, (yours A B).count k = if k ∈ B.keys ∧ k ∉ A.keys then 1 else 0) ∧
    (A.entries = [] →
      (yours A B).Perm B.keys ∧ mismatchPaths (report env A B) = []) := by
  refine ⟨k8sOnlyPaths_report env A B, ?_, ?_⟩
  · intro k
    rw [List.count_eq_of_nodup (yours_nodup A B hB)]
    simp only [mem_yours]
  · intro hA
    have hk : A.keys = [] := by simp [GoMap.keys, hA]
    constructor
    · have hy : rangeK8s A B = B.keys := by
        rw [rangeK8s_eq, List.filter_eq_self]
        intro k _
        have : (A.lookup k).isSome = false := by
          rw [Bool.eq_false_iff]
          intro e
          have := (A.lookup_isSome_iff k).1 e
          simp [hk] at this
        simp [this]
      rw [yours, hy]
      exact sortStrings_perm _
    · rw [mismatchPaths_report]
      have ho : ours A B = [] := by
        rw [ours, rangeOrigin_eq, hk]
        rfl
      rw [ho]
      rfl

/-- Witness for C3: self is empty and the other manifest pins `x/y` at `z`. -/
theorem yours_exactly_missing_witness :
    (⟨[("x/y", ⟨"x/y", "", "z"⟩)]⟩ : GoMap String Dep).WF ∧
    (k8sOnlyPaths (report sampleEnv ⟨[]⟩ ⟨[("x/y", ⟨"x/y", "", "z"⟩)]⟩)
        = yours ⟨[]⟩ ⟨[("x/y", ⟨"x/y", "", "z"⟩)]⟩ ∧
      (∀ k, (yours ⟨[]⟩ ⟨[("x/y", ⟨"x/y", "", "z"⟩)]⟩).count k
        = if k ∈ (⟨[("x/y", ⟨"x/y", "", "z"⟩)]⟩ : GoMap String Dep).keys ∧
            k ∉ (⟨[]⟩ : GoMap String Dep).keys then 1 else 0) ∧
      ((⟨[]⟩ : GoMap String Dep).entries = [] →
        (yours ⟨[]⟩ ⟨[("x/y", ⟨"x/y", "", "z"⟩)]⟩).Perm
            (⟨[("x/y", ⟨"x/y", "", "z"⟩)]⟩ : GoMap String Dep).keys ∧
          mismatchPaths (report sampleEnv ⟨[]⟩ ⟨[("x/y", ⟨"x/y", "", "z"⟩)]⟩) = [])) :=
  ⟨by decide, yours_exactly_missing sampleEnv ⟨[]⟩ ⟨[("x/y", ⟨"x/y", "", "z"⟩)]⟩ (by decide)⟩

/-- C9: a path pinned at the same revision in both manifests is in none of
`mine`, `yours`, the printed k8s-only list and the mismatch entries, and its
turn in the loop over `ours` prints nothing and calls `util.IsAncestor` not at
all; every call of `util.IsAncestor` in the report is for two different
revisions.  A path pinned at different revisions has a mismatch entry. -/
theorem identical_revisions_unreported {Data : Type} (env : Env Data)
    (A B : GoMap String Dep) (k : String) (a b : Dep)
    (hA : A.lookup k = some a) (hB : B.lookup k = some b) :
    (a.Rev = b.Rev →
      k ∉ mine A B ∧ k ∉ yours A B ∧ k ∉ k8sOnlyPaths (report env A B) ∧
      k ∉ mismatchPaths (report env A B) ∧ checkLevel env A B k = []) ∧
    (∀ c ∈ ancestorCalls (report env A B), c.1 ≠ c.2.1) ∧
    (a.Rev ≠ b.Rev → k ∈ mismatchPaths (report env A B)) := by
  have hkA := mem_keys_of_lookup A k a hA
  have hkB := mem_keys_of_lookup B k b hB
  have hrA := revOf_of_lookup A k a hA
  have hrB := revOf_of_lookup B k b hB
  have hy : k ∉ yours A B := fun h => ((mem_yours A B k).1 h).2 hkA
  refine ⟨fun heq => ⟨?_, hy, ?_, ?_, ?_⟩, ancestorCalls_report env A B, fun hne => ?_⟩
  · exact fun h => ((mem_mine A B k).1 h).2 hkB
  · rw [k8sOnlyPaths_report]
    exact hy
  · rw [mismatchPaths_report, List.mem_filter, hrA, hrB]
    simp [heq]
  · simp [checkLevel, hrA, hrB, heq]
  · rw [mismatchPaths_report, List.mem_filter, hrA, hrB]
    exact ⟨(mem_ours A B k).2 ⟨hkA, hkB⟩, by simpa using hne⟩

/-- Witness for C9: `m` is pinned at `r` in both manifests, `foo/bar` is
not. -/
theorem identical_revisions_unreported_witness :
    sampleOrigin.lookup "m" = some ⟨"m", "", "r"⟩ ∧
    sampleK8s.lookup "m" = some ⟨"m", "v1", "r"⟩ ∧
    ((("r" : String) = "r" →
        "m" ∉ mine sampleOrigin sampleK8s ∧ "m" ∉ yours sampleOrigin sampleK8s ∧
        "m" ∉ k8sOnlyPaths (report sampleEnv sampleOrigin sampleK8s) ∧
        "m" ∉ mismatchPaths (report sampleEnv sampleOrigin sampleK8s) ∧
        checkLevel sampleEnv sampleOrigin sampleK8s "m" = []) ∧
      (∀ c ∈ ancestorCalls (report sampleEnv sampleOrigin sampleK8s), c.1 ≠ c.2.1) ∧
      (("r" : String) ≠ "r" → "m" ∈ mismatchPaths (report sampleEnv sampleOrigin sampleK8s))) :=
  ⟨by decide, by decide,
    identical_revisions_unreported sampleEnv sampleOrigin sampleK8s "m"
      ⟨"m", "", "r"⟩ ⟨"m", "v1", "r"⟩ (by decide) (by decide)⟩

/-- C10: when no key of self is a key of the other manifest, `ours` is empty,
the report has no mismatch entry and no call of `util.IsAncestor`, and the
k8s-only list is `yours`, a rearrangement of all keys of the other manifest. -/
theorem disjoint_manifests {Data : Type} (env : Env Data) (A B : GoMap String Dep)
    (hdisj : ∀ k, k ∈ A.keys → k ∉ B.keys) :
    ours A B = [] ∧ mismatchPaths (report env A B) = [] ∧
    ancestorCalls (report env A B) = [] ∧
    k8sOnlyPaths (report env A B) = yours A B ∧ (yours A B).Perm B.keys := by
  have ho : ours A B = [] := by
    have hf : A.keys.filter (fun k => (B.lookup k).isSome) = [] := by
      rw [List.filter_eq_nil_iff]
      intro k hk e
      exact hdisj k hk ((B.lookup_isSome_iff k).1 e)
    rw [ours, rangeOrigin_eq, hf]
    rfl
  have hy : rangeK8s A B = B.keys := by
    rw [rangeK8s_eq, List.filter_eq_self]
    intro k hk
    have : (A.lookup k).isSome = false := by
      rw [Bool.eq_false_iff]
      exact fun e => hdisj k ((A.lookup_isSome_iff k).1 e) hk
    simp [this]
  refine ⟨ho, ?_, ?_, k8sOnlyPaths_report env A B, ?_⟩
  · rw [mismatchPaths_report, ho]
    rfl
  · rw [report, ho, List.flatMap_nil, List.append_nil]
    exact ancestorCalls_printYours _
  · rw [yours, hy]
    exact sortStrings_perm _

/-- Witness for C10: self has `a` and `z/only`, the other manifest is
`sampleK8s`. -/
theorem disjoint_manifests_witness :
    (∀ k, k ∈ (⟨[("z/only", ⟨"z/only", "", "q"⟩), ("a", ⟨"a", "", "r"⟩)]⟩ :
        GoMap String Dep).keys → k ∉ sampleK8s.keys) ∧
    (ours ⟨[("z/only", ⟨"z/only", "", "q"⟩), ("a", ⟨"a", "", "r"⟩)]⟩ sampleK8s = [] ∧
      mismatchPaths (report sampleEnv
        ⟨[("z/only", ⟨"z/only", "", "q"⟩), ("a", ⟨"a", "", "r"⟩)]⟩ sampleK8s) = [] ∧
      ancestorCalls (report sampleEnv
        ⟨[("z/only", ⟨"z/only", "", "q"⟩), ("a", ⟨"a", "", "r"⟩)]⟩ sampleK8s) = [] ∧
      k8sOnlyPaths (report sampleEnv
        ⟨[("z/only", ⟨"z/only", "", "q"⟩), ("a", ⟨"a", "", "r"⟩)]⟩ sampleK8s)
        = yours ⟨[("z/only", ⟨"z/only", "", "q"⟩), ("a", ⟨"a", "", "r"⟩)]⟩ sampleK8s ∧
      (yours ⟨[("z/only", ⟨"z/only", "", "q"⟩), ("a", ⟨"a", "", "r"⟩)]⟩ sampleK8s).Perm
        sampleK8s.keys) :=
  ⟨by decide,
    disjoint_manifests sampleEnv ⟨[("z/only", ⟨"z/only", "", "q"⟩), ("a", ⟨"a", "", "r"⟩)]⟩
      sampleK8s (by decide)⟩

/-! ## Order of the report -/

theorem lookup_eq_some_iff_mem {V : Type} (l : List (String × V)) (hnd : (l.map Prod.fst).Nodup)
    (k : String) (v : V) : List.lookup k l = some v ↔ (k, v) ∈ l := by
  refine ⟨mem_of_lookup_eq_some l k v, ?_⟩
  induction l with
  | nil => simp
  | cons p l ih =>
    obtain ⟨k', v'⟩ := p
    simp only [List.map_cons, List.nodup_cons] at hnd
    intro hmem
    rcases List.mem_cons.1 hmem with e | hmem2
    · simp only [Prod.mk.injEq] at e
      simp [List.lookup, e.1, e.2]
    · have hne : k ≠ k' := by
        rintro rfl
        exact hnd.1 (List.mem_map.2 ⟨(k, v), hmem2, rfl⟩)
      have hb : (k == k') = false := by simpa using hne
      simp only [List.lookup, hb]
      exact ih hnd.2 hmem2

theorem lookup_perm (A A' : GoMap String Dep) (hA : A.WF) (h : A'.entries.Perm A.entries)
    (k : String) : A'.lookup k = A.lookup k := by
  have hA' : (A'.entries.map Prod.fst).Nodup := ((h.map Prod.fst).nodup_iff).2 hA
  apply Option.ext
  intro d
  simp only [GoMap.lookup, Option.mem_def]
  rw [lookup_eq_some_iff_mem _ hA', lookup_eq_some_iff_mem _ hA, h.mem_iff]

theorem report_congr {Data : Type} (env : Env Data) (A B A' B' : GoMap String Dep)
    (hA : A.WF) (hB : B.WF) (hA' : A'.WF) (hB' : B'.WF)
    (hlA : ∀ k, A'.lookup k = A.lookup k) (hlB : ∀ k, B'.lookup k = B.lookup k) :
    report env A' B' = report env A B := by
  have keysA : A'.keys.Perm A.keys := by
    rw [List.perm_ext_iff_of_nodup hA' hA]
    intro k
    rw [← A'.lookup_isSome_iff, ← A.lookup_isSome_iff, hlA]
  have keysB : B'.keys.Perm B.keys := by
    rw [List.perm_ext_iff_of_nodup hB' hB]
    intro k
    rw [← B'.lookup_isSome_iff, ← B.lookup_isSome_iff, hlB]
  have hy : yours A' B' = yours A B := by
    rw [yours, yours, rangeK8s_eq, rangeK8s_eq]
    apply sortStrings_congr
    have : (fun k => !(A'.lookup k).isSome) = (fun k => !(A.lookup k).isSome) := by
      funext k; rw [hlA]
    rw [this]
    exact keysB.filter _
  have ho : ours A' B' = ours A B := by
    rw [ours, ours, rangeOrigin_eq, rangeOrigin_eq]
    apply sortStrings_congr
    have : (fun k => (B'.lookup k).isSome) = (fun k => (B.lookup k).isSome) := by
      funext k; rw [hlB]
    simp only [this]
    exact keysA.filter _
  have hc : checkLevel env A' B' = checkLevel env A B := by
    funext k
    simp only [checkLevel, revOf, hlA, hlB]
  rw [report, report, hy, ho, hc]

theorem loadGodepsLoop_some (deps : List Dep) (A : GoMap String Dep)
    (h : loadGodepsLoop deps GoMap.empty = (some A, none)) :
    (deps.map Dep.ImportPath).Nodup ∧ A = ⟨deps.map (fun d => (d.ImportPath, d))⟩ := by
  by_cases hnd : (deps.map Dep.ImportPath).Nodup
  · refine ⟨hnd, ?_⟩
    rw [loadGodepsLoop_ok deps GoMap.empty (by simpa [GoMap.empty, GoMap.keys] using hnd)] at h
    simp only [GoMap.empty, List.nil_append, Prod.mk.injEq, Option.some.injEq, and_true] at h
    exact h.symm
  · obtain ⟨p, hp, _⟩ := loadGodepsLoop_dup deps GoMap.empty
      (by simp [GoMap.empty, GoMap.keys]) (by simpa [GoMap.empty, GoMap.keys] using hnd)
    rw [hp] at h
    simp at h

theorem loadGodepsLoop_perm (deps deps' : List Dep) (A : GoMap String Dep)
    (h : loadGodepsLoop deps GoMap.empty = (some A, none)) (hp : deps'.Perm deps) :
    ∃ A', loadGodepsLoop deps' GoMap.empty = (some A', none) ∧ A'.entries.Perm A.entries := by
  obtain ⟨hnd, rfl⟩ := loadGodepsLoop_some deps A h
  have hnd' : (deps'.map Dep.ImportPath).Nodup := ((hp.map _).nodup_iff).2 hnd
  refine ⟨⟨deps'.map (fun d => (d.ImportPath, d))⟩, ?_, hp.map _⟩
  rw [loadGodepsLoop_ok deps' GoMap.empty (by simpa [GoMap.empty, GoMap.keys] using hnd')]
  simp [GoMap.empty]

/-- C8: the paths printed under the k8s-only heading and the paths of the
mismatch entries are each strictly increasing in the order of strings, and the
report is the same for all maps with the same lookups, so in particular for
every order of the entries of the two maps, and for every order of the records
in the two manifests the maps were loaded from. -/
theorem report_sorted_order_independent {Data : Type} (env : Env Data)
    (A B : GoMap String Dep) (hA : A.WF) (hB : B.WF) :
    (k8sOnlyPaths (report env A B)).Sorted (· < ·) ∧
    (mismatchPaths (report env A B)).Sorted (· < ·) ∧
    (∀ A' B' : GoMap String Dep, A'.WF → B'.WF →
      (∀ k, A'.lookup k = A.lookup k) → (∀ k, B'.lookup k = B.lookup k) →
      report env A' B' = report env A B) ∧
    (∀ A' B' : GoMap String Dep, A'.entries.Perm A.entries → B'.entries.Perm B.entries →
      report env A' B' = report env A B) ∧
    (∀ depsA depsB depsA' depsB' : List Dep,
      loadGodepsLoop depsA GoMap.empty = (some A, none) →
      loadGodepsLoop depsB GoMap.empty = (some B, none) →
      depsA'.Perm depsA → depsB'.Perm depsB →
      ∃ A' B', loadGodepsLoop depsA' GoMap.empty = (some A', none) ∧
        loadGodepsLoop depsB' GoMap.empty = (some B', none) ∧
        report env A' B' = report env A B) := by
  have hperm : ∀ A' B' : GoMap String Dep, A'.entries.Perm A.entries →
      B'.entries.Perm B.entries → report env A' B' = report env A B := by
    intro A' B' hpA hpB
    have hA' : A'.WF := ((hpA.map Prod.fst).nodup_iff).2 hA
    have hB' : B'.WF := ((hpB.map Prod.fst).nodup_iff).2 hB
    exact report_congr env A B A' B' hA hB hA' hB'
      (lookup_perm A A' hA hpA) (lookup_perm B B' hB hpB)
  refine ⟨?_, ?_, ?_, hperm, ?_⟩
  · rw [k8sOnlyPaths_report, yours]
    apply sortStrings_sorted_lt
    rw [rangeK8s_eq]
    exact hB.filter _
  · rw [mismatchPaths_report, ours]
    apply List.Sorted.filter
    apply sortStrings_sorted_lt
    rw [rangeOrigin_eq]
    exact hA.filter _
  · intro A' B' hA' hB' hlA hlB
    exact report_congr env A B A' B' hA hB hA' hB' hlA hlB
  · intro depsA depsB depsA' depsB' hlA hlB hpA hpB
    obtain ⟨A', hA', hpA'⟩ := loadGodepsLoop_perm depsA depsA' A hlA hpA
    obtain ⟨B', hB', hpB'⟩ := loadGodepsLoop_perm depsB depsB' B hlB hpB
    exact ⟨A', B', hA', hB', hperm A' B' hpA' hpB'⟩

/-- Witness for C8: the two sample manifests. -/
theorem report_sorted_order_independent_witness :
    sampleOrigin.WF ∧ sampleK8s.WF ∧
    ((k8sOnlyPaths (report sampleEnv sampleOrigin sampleK8s)).Sorted (· < ·) ∧
      (mismatchPaths (report sampleEnv sampleOrigin sampleK8s)).Sorted (· < ·) ∧
      (∀ A' B' : GoMap String Dep, A'.WF → B'.WF →
        (∀ k, A'.lookup k = sampleOrigin.lookup k) → (∀ k, B'.lookup k = sampleK8s.lookup k) →
        report sampleEnv A' B' = report sampleEnv sampleOrigin sampleK8s) ∧
      (∀ A' B' : GoMap String Dep, A'.entries.Perm sampleOrigin.entries →
        B'.entries.Perm sampleK8s.entries →
        report sampleEnv A' B' = report sampleEnv sampleOrigin sampleK8s) ∧
      (∀ depsA depsB depsA' depsB' : List Dep,
        loadGodepsLoop depsA GoMap.empty = (some sampleOrigin, none) →
        loadGodepsLoop depsB GoMap.empty = (some sampleK8s, none) →
        depsA'.Perm depsA → depsB'.Perm depsB →
        ∃ A' B', loadGodepsLoop depsA' GoMap.empty = (some A', none) ∧
          loadGodepsLoop depsB' GoMap.empty = (some B', none) ∧
          report sampleEnv A' B' = report sampleEnv sampleOrigin sampleK8s)) :=
  ⟨by decide, by decide,
    report_sorted_order_independent sampleEnv sampleOrigin sampleK8s (by decide) (by decide)⟩

/-! ## Classification of a mismatch -/

theorem clean_iff (r : Bool × Option GoError) :
    (r.1 && r.2 == none) = true ↔ r = (true, none) := by
  obtain ⟨b, e⟩ := r
  cases b <;> cases e <;> simp

theorem infix_flatMap_of_mem {α β : Type} (f : α → List β) (l : List α) (pre : List β) (a : α)
    (h : a ∈ l) : List.IsInfix (f a) (pre ++ l.flatMap f) := by
  obtain ⟨s, t, rfl⟩ := List.append_of_mem h
  exact ⟨pre ++ s.flatMap f, t.flatMap f, by simp [List.flatMap_append, List.flatMap_cons]⟩

theorem checkLevel_of_ne {Data : Type} (env : Env Data) (A B : GoMap String Dep) (k : String)
    (a b : Dep) (hA : A.lookup k = some a) (hB : B.lookup k = some b) (hne : a.Rev ≠ b.Rev) :
    checkLevel env A B k = reportMismatch env k a.Rev b.Rev := by
  have hb : (a.Rev != b.Rev) = true := by simpa using hne
  simp only [checkLevel, revOf_of_lookup A k a hA, revOf_of_lookup B k b hB, hb, if_true]

/-- C4: for a path in both manifests with different revisions, the entry of
the report (which is part of the report) is: self older and other newer when
`IsAncestor(selfRev, otherRev, dir)` returns `(true, nil)`; otherwise self
newer and other older when `IsAncestor(otherRev, selfRev, dir)` returns
`(true, nil)`; otherwise both unknown.  Each labelling occurs in no other
case. -/
theorem mismatch_labelled_by_ancestry {Data : Type} (env : Env Data) (A B : GoMap String Dep)
    (k : String) (a b : Dep) (hA : A.lookup k = some a) (hB : B.lookup k = some b)
    (hne : a.Rev ≠ b.Rev) :
    List.IsInfix (checkLevel env A B k) (report env A B) ∧
    checkLevel env A B k =
      (if env.IsAncestor a.Rev b.Rev (env.Join [env.gopath, "src", k]) = (true, none) then
        [Event.mismatch k, Event.isAncestorCall a.Rev b.Rev (env.Join [env.gopath, "src", k]),
          Event.origin a.Rev Label.older, Event.k8s b.Rev Label.newer]
      else if env.IsAncestor b.Rev a.Rev (env.Join [env.gopath, "src", k]) = (true, none) then
        [Event.mismatch k, Event.isAncestorCall a.Rev b.Rev (env.Join [env.gopath, "src", k]),
          Event.isAncestorCall b.Rev a.Rev (env.Join [env.gopath, "src", k]),
          Event.origin a.Rev Label.newer, Event.k8s b.Rev Label.older]
      else
        [Event.mismatch k, Event.isAncestorCall a.Rev b.Rev (env.Join [env.gopath, "src", k]),
          Event.isAncestorCall b.Rev a.Rev (env.Join [env.gopath, "src", k]),
          Event.origin a.Rev Label.unknown, Event.k8s b.Rev Label.unknown,
          Event.errText (env.IsAncestor b.Rev a.Rev (env.Join [env.gopath, "src", k])).2]) ∧
    ((originLabel (checkLevel env A B k) = some Label.older ∧
        k8sLabel (checkLevel env A B k) = some Label.newer) ↔
      env.IsAncestor a.Rev b.Rev (env.Join [env.gopath, "src", k]) = (true, none)) ∧
    ((originLabel (checkLevel env A B k) = some Label.newer ∧
        k8sLabel (checkLevel env A B k) = some Label.older) ↔
      (env.IsAncestor a.Rev b.Rev (env.Join [env.gopath, "src", k]) ≠ (true, none) ∧
        env.IsAncestor b.Rev a.Rev (env.Join [env.gopath, "src", k]) = (true, none))) ∧
    ((originLabel (checkLevel env A B k) = some Label.unknown ∧
        k8sLabel (checkLevel env A B k) = some Label.unknown) ↔
      (env.IsAncestor a.Rev b.Rev (env.Join [env.gopath, "src", k]) ≠ (true, none) ∧
        env.IsAncestor b.Rev a.Rev (env.Join [env.gopath, "src", k]) ≠ (true, none))) := by
  have hin : k ∈ ours A B :=
    (mem_ours A B k).2 ⟨mem_keys_of_lookup A k a hA, mem_keys_of_lookup B k b hB⟩
  have hT := checkLevel_of_ne env A B k a b hA hB hne
  refine ⟨infix_flatMap_of_mem _ _ _ k hin, ?_, ?_, ?_, ?_⟩
  · rw [hT, reportMismatch_eq]
    simp only [clean_iff]
  all_goals
    rw [hT, reportMismatch_eq]
    simp only [clean_iff]
    split_ifs <;> simp [originLabel, k8sLabel, *]

/-- Witness for C4: `foo/bar` at `aaa` in self and at `bbb` in the other
manifest, with `aaa` an ancestor of `bbb`. -/
theorem mismatch_labelled_by_ancestry_witness :
    sampleOrigin.lookup "foo/bar" = some ⟨"foo/bar", "", "aaa"⟩ ∧
    sampleK8s.lookup "foo/bar" = some ⟨"foo/bar", "", "bbb"⟩ ∧
    ("aaa" : String) ≠ "bbb" ∧
    checkLevel sampleEnv sampleOrigin sampleK8s "foo/bar" =
      [Event.mismatch "foo/bar", Event.isAncestorCall "aaa" "bbb" "/go/src/foo/bar",
        Event.origin "aaa" Label.older, Event.k8s "bbb" Label.newer] :=
  ⟨by decide, by decide, by decide,
    (mismatch_labelled_by_ancestry sampleEnv sampleOrigin sampleK8s "foo/bar"
      ⟨"foo/bar", "", "aaa"⟩ ⟨"foo/bar", "", "bbb"⟩ (by decide) (by decide) (by decide)).2.1.trans
      (by decide)⟩

/-- C5 as stated fails: in `flakyEnv` the first call returns an error and the
second returns `(false, nil)`; both revisions are labelled unknown, and line 95
prints the nil error of the second call, not the error of the first call. -/
theorem first_error_not_printed :
    flakyEnv.IsAncestor "aaa" "bbb" (flakyEnv.Join [flakyEnv.gopath, "src", "foo/bar"])
      = (false, some (GoError.other "exit status 128")) ∧
    flakyEnv.IsAncestor "bbb" "aaa" (flakyEnv.Join [flakyEnv.gopath, "src", "foo/bar"])
      = (false, none) ∧
    checkLevel flakyEnv sampleOrigin sampleK8s "foo/bar" =
      [Event.mismatch "foo/bar", Event.isAncestorCall "aaa" "bbb" "/go/src/foo/bar",
        Event.isAncestorCall "bbb" "aaa" "/go/src/foo/bar",
        Event.origin "aaa" Label.unknown, Event.k8s "bbb" Label.unknown, Event.errText none] ∧
    Event.errText (some (GoError.other "exit status 128")) ∉
      checkLevel flakyEnv sampleOrigin sampleK8s "foo/bar" := by
  decide

/-- C5 as amended: for a path in both manifests with different revisions, when
neither call of `util.IsAncestor` returns `(true, nil)`, both revisions are
labelled unknown and the one error line printed is the error result of the
second call, `IsAncestor(otherRev, selfRev, dir)`. -/
theorem unknown_prints_second_error {Data : Type} (env : Env Data) (A B : GoMap String Dep)
    (k : String) (a b : Dep) (hA : A.lookup k = some a) (hB : B.lookup k = some b)
    (hne : a.Rev ≠ b.Rev)
    (h1 : env.IsAncestor a.Rev b.Rev (env.Join [env.gopath, "src", k]) ≠ (true, none))
    (h2 : env.IsAncestor b.Rev a.Rev (env.Join [env.gopath, "src", k]) ≠ (true, none)) :
    originLabel (checkLevel env A B k) = some Label.unknown ∧
    k8sLabel (checkLevel env A B k) = some Label.unknown ∧
    printedErrors (checkLevel env A B k)
      = [(env.IsAncestor b.Rev a.Rev (env.Join [env.gopath, "src", k])).2] ∧
    checkLevel env A B k =
      [Event.mismatch k, Event.isAncestorCall a.Rev b.Rev (env.Join [env.gopath, "src", k]),
        Event.isAncestorCall b.Rev a.Rev (env.Join [env.gopath, "src", k]),
        Event.origin a.Rev Label.unknown, Event.k8s b.Rev Label.unknown,
        Event.errText (env.IsAncestor b.Rev a.Rev (env.Join [env.gopath, "src", k])).2] := by
  have hT : checkLevel env A B k =
      [Event.mismatch k, Event.isAncestorCall a.Rev b.Rev (env.Join [env.gopath, "src", k]),
        Event.isAncestorCall b.Rev a.Rev (env.Join [env.gopath, "src", k]),
        Event.origin a.Rev Label.unknown, Event.k8s b.Rev Label.unknown,
        Event.errText (env.IsAncestor b.Rev a.Rev (env.Join [env.gopath, "src", k])).2] := by
    rw [checkLevel_of_ne env A B k a b hA hB hne, reportMismatch_eq]
    simp only [clean_iff]
    rw [if_neg h1, if_neg h2]
  rw [hT]
  exact ⟨rfl, rfl, rfl, rfl⟩

/-- Witness for C5 as amended: self is `sampleK8s` and the other manifest is
`sampleOrigin`, so that in `flakyEnv` the second call is the one that returns
an error. -/
theorem unknown_prints_second_error_witness :
    sampleK8s.lookup "foo/bar" = some ⟨"foo/bar", "", "bbb"⟩ ∧
    sampleOrigin.lookup "foo/bar" = some ⟨"foo/bar", "", "aaa"⟩ ∧
    ("bbb" : String) ≠ "aaa" ∧
    flakyEnv.IsAncestor "bbb" "aaa" (flakyEnv.Join [flakyEnv.gopath, "src", "foo/bar"])
      ≠ (true, none) ∧
    flakyEnv.IsAncestor "aaa" "bbb" (flakyEnv.Join [flakyEnv.gopath, "src", "foo/bar"])
      ≠ (true, none) ∧
    printedErrors (checkLevel flakyEnv sampleK8s sampleOrigin "foo/bar")
      = [some (GoError.other "exit status 128")] :=
  ⟨by decide, by decide, by decide, by decide, by decide,
    (unknown_prints_second_error flakyEnv sampleK8s sampleOrigin "foo/bar"
      ⟨"foo/bar", "", "bbb"⟩ ⟨"foo/bar", "", "aaa"⟩ (by decide) (by decide) (by decide)
      (by decide) (by decide)).2.2.1⟩

/-! ## Antisymmetry -/

/-- C7: under a history that never has two different revisions each an
ancestor of the other, if lines 85-96 label self older for self at `rev1` and
other at `rev2`, then for self at `rev2` and other at `rev1` they label self
newer and other older (so neither older nor unknown).  That the history never
returns an error is not needed: the label older already says that the first
call returned no error, and the swapped run asks that same question second. -/
theorem swap_of_older_is_newer {Data : Type} (env : Env Data) (k rev1 rev2 : String)
    (hne : rev1 ≠ rev2)
    (hanti : ∀ a b d, a ≠ b → (env.IsAncestor a b d).1 = true → (env.IsAncestor b a d).1 = false)
    (hold : originLabel (reportMismatch env k rev1 rev2) = some Label.older) :
    originLabel (reportMismatch env k rev2 rev1) = some Label.newer ∧
    k8sLabel (reportMismatch env k rev2 rev1) = some Label.older ∧
    reportMismatch env k rev2 rev1 =
      [Event.mismatch k, Event.isAncestorCall rev2 rev1 (env.Join [env.gopath, "src", k]),
        Event.isAncestorCall rev1 rev2 (env.Join [env.gopath, "src", k]),
        Event.origin rev2 Label.newer, Event.k8s rev1 Label.older] := by
  have h12 : env.IsAncestor rev1 rev2 (env.Join [env.gopath, "src", k]) = (true, none) := by
    rw [reportMismatch_eq] at hold
    simp only [clean_iff] at hold
    by_contra hc
    rw [if_neg hc] at hold
    split_ifs at hold <;> simp [originLabel] at hold
  have h21 : env.IsAncestor rev2 rev1 (env.Join [env.gopath, "src", k]) ≠ (true, none) := by
    intro e
    have := hanti rev1 rev2 _ hne (by rw [h12])
    rw [e] at this
    exact absurd this (by decide)
  have hT : reportMismatch env k rev2 rev1 =
      [Event.mismatch k, Event.isAncestorCall rev2 rev1 (env.Join [env.gopath, "src", k]),
        Event.isAncestorCall rev1 rev2 (env.Join [env.gopath, "src", k]),
        Event.origin rev2 Label.newer, Event.k8s rev1 Label.older] := by
    rw [reportMismatch_eq]
    simp only [clean_iff]
    rw [if_neg h21, if_pos h12]
  rw [hT]
  exact ⟨rfl, rfl, rfl⟩

/-- Witness for C7: the history of `sampleEnv`, self at `aaa`, other at
`bbb`. -/
theorem swap_of_older_is_newer_witness :
    ("aaa" : String) ≠ "bbb" ∧
    (∀ a b d, a ≠ b → (sampleEnv.IsAncestor a b d).1 = true →
      (sampleEnv.IsAncestor b a d).1 = false) ∧
    originLabel (reportMismatch sampleEnv "foo/bar" "aaa" "bbb") = some Label.older ∧
    originLabel (reportMismatch sampleEnv "foo/bar" "bbb" "aaa") = some Label.newer ∧
    k8sLabel (reportMismatch sampleEnv "foo/bar" "bbb" "aaa") = some Label.older :=
  have hanti : ∀ a b d, a ≠ b → (sampleEnv.IsAncestor a b d).1 = true →
      (sampleEnv.IsAncestor b a d).1 = false := by
    intro a b d _ h
    simp only [sampleEnv, Bool.and_eq_true, beq_iff_eq] at h
    simp [sampleEnv, h.1, h.2]
  have h := swap_of_older_is_newer sampleEnv "foo/bar" "aaa" "bbb" (by decide)
    hanti (by decide)
  ⟨by decide, hanti, by decide, h.1, h.2.1⟩

/-! ## `loadImports` -/

/-- For a literal `"p"` with `p` not empty, `pkg[1:len(pkg)-2]` is in range and
is `p` without its last byte. -/
theorem slice_quoted (p : GoBytes) (hp : p ≠ []) :
    slice (34 :: p ++ [34]) 1 (((34 :: p ++ [34]).length : Int) - 2) = some p.dropLast := by
  have hlen : 1 ≤ p.length := List.length_pos.2 hp
  have hhi : (((34 :: p ++ [34] : GoBytes).length : Int) - 2) = (p.length : Int) := by
    simp only [List.cons_append, List.length_cons, List.length_append, List.length_nil]
    push_cast
    omega
  rw [hhi]
  have hcond : (0 : Int) ≤ 1 ∧ (1 : Int) ≤ (p.length : Int) ∧
      (p.length : Int) ≤ ((34 :: p ++ [34] : GoBytes).length : Int) := by
    refine ⟨by decide, by exact_mod_cast hlen, ?_⟩
    simp only [List.cons_append, List.length_cons, List.length_append, List.length_nil]
    push_cast
    omega
  simp only [slice, hcond, and_self, if_true, Int.toNat_ofNat, Option.some.injEq]
  obtain ⟨n, hn⟩ : ∃ n, p.length = n + 1 := ⟨p.length - 1, by omega⟩
  have h1 : (1 : Int).toNat = 1 := rfl
  rw [h1, hn, List.cons_append, List.take_succ_cons, List.drop_succ_cons, List.drop_zero,
    List.take_append_of_le_length (by omega), List.dropLast_eq_take, hn]
  rfl

/-- C6 fails on the code: for a file `a.go` whose one import declaration has
the path literal `"fmt"` (bytes 34 102 109 116 34), `loadImports` returns the
set with the one key `fm` (bytes 102 109), not `fmt`. -/
theorem loadImports_drops_last_byte :
    loadImports (FsNode.dir "." [FsNode.file "a.go" true (Except.ok [[34, 102, 109, 116, 34]])])
      = some (⟨[([102, 109], true)]⟩, []) ∧
    ([102, 109] : GoBytes) ≠ [102, 109, 116] := by
  decide

/-! ## A whole run -/

/-- When both manifests load and the scan of the tree returns no error, `main`
prints the text of line 22 and then the report, and returns. -/
theorem main_returned {Data : Type} (env : Env Data) (A B : GoMap String Dep)
    (imports : GoMap GoBytes Bool)
    (hA : loadGodeps env.readFile env.unmarshal env.self = (some A, none))
    (hB : loadGodeps env.readFile env.unmarshal env.other = (some B, none))
    (hI : loadImports env.root = some (imports, [])) :
    main env = Outcome.returned (Event.banner :: report env A B) := by
  simp [main, hA, hB, hI]

/-- Scenario 1 of the specification, run from `main`. -/
theorem main_sampleEnv :
    main sampleEnv = Outcome.returned
      [Event.banner, Event.mismatch "foo/bar",
        Event.isAncestorCall "aaa" "bbb" "/go/src/foo/bar",
        Event.origin "aaa" Label.older, Event.k8s "bbb" Label.newer] := by
  decide

end Godepchecker
